import Mathlib

/-!
Verification of the Botpress CLI schema-driven code-generation core.

The development shallowly embeds the code of
`src/unnamed/part_001` (the `IntegrationImplementationIndexModule`:
`create`, the `content` getter, `_mapIntegration`, `_mapSchema`) and of
`src/packages/cli/src/command-implementations/project-command.ts`
(`readIntegrationDefinitionFromFS`, `writeGeneratedFilesToOutFolder`).

Collaborators that the repository references but whose code is not under
`src/` (the `Module` base class, the five leaf generator modules, the
constants `GENERATED_HEADER` and `INDEX_FILE`, `stringifySingleLine`,
`utils.schema.mapZodToJsonSchema`, `utils.records.mapValues`, and the
Node.js file-system primitives) are modelled from the specification; each
such definition carries a doc comment starting with `Modelled from the
spec:`.
-/

section SchemaModel

/-- Portable JSON-Schema-like tree: the `SchemaNode` of the design, the
result type of the schema translator (`kind` object / array / primitives /
`unknown` for unclassifiable constructs). -/
inductive JsonSchema where
  | unknown : JsonSchema
  | str : JsonSchema
  | num : JsonSchema
  | boolean : JsonSchema
  | arr : JsonSchema → JsonSchema
  | obj : List (String × JsonSchema) → JsonSchema
  deriving Repr

/-- Raw structural-validation schema: the external validation library's
(zod's) runtime object model, as consumed by the schema translator. -/
inductive ZodSchema where
  | string : ZodSchema
  | number : ZodSchema
  | boolean : ZodSchema
  | optional : ZodSchema → ZodSchema
  | array : ZodSchema → ZodSchema
  | object : List (String × ZodSchema) → ZodSchema
  deriving Repr

/-- Dynamic schema value. In the JavaScript source a `schema` field holds
either the raw validation-library object (before the Definition Mapper
runs) or the translated JSON-schema object (after); the embedding keeps
both in one type so that functions of the source, which are untyped at
runtime, can be applied to either form. -/
inductive SchemaVal where
  | zod : ZodSchema → SchemaVal
  | json : JsonSchema → SchemaVal
  deriving Repr

mutual

/-- Modelled from the spec: the Schema Translator on a genuine
validation-library object — total, recursing into object fields in
declared order, arrays through their element, optionality copied
through. -/
def zodToJson : ZodSchema → JsonSchema
  | .string => .str
  | .number => .num
  | .boolean => .boolean
  | .optional s => zodToJson s
  | .array s => .arr (zodToJson s)
  | .object fs => .obj (zodFieldsToJson fs)

/-- Modelled from the spec: field-wise translation of an object schema,
preserving the declared field order. -/
def zodFieldsToJson : List (String × ZodSchema) → List (String × JsonSchema)
  | [] => []
  | (k, v) :: rest => (k, zodToJson v) :: zodFieldsToJson rest

end

/-- A schema-bearing leaf of a definition: the source types these as
`{ schema: ... }` objects (`bpsdk` configuration / event / state /
action-input / message definitions). -/
structure WithSchema where
  schema : SchemaVal
  deriving Repr

/-- Modelled from the spec: `utils.schema.mapZodToJsonSchema` receives the
whole `{ schema }` object and translates its `schema` member. It is total:
a construct it cannot classify — in particular an object that is not the
validation library's object model, such as an already-translated JSON
schema — degrades to the `unknown` node. -/
def mapZodToJsonSchema (x : WithSchema) : JsonSchema :=
  match x.schema with
  | .zod s => zodToJson s
  | .json _ => .unknown

end SchemaModel

section DefinitionModel

/-- Modelled from the spec: `utils.records.mapValues` — maps a function
over the values of a string-keyed record, keeping keys and their order. -/
def mapValues (f : α → β) (l : List (String × α)) : List (String × β) :=
  l.map fun p => (p.1, f p.2)

/-- Tag definitions of a `tags` record (`Record<string, tagDef>`); the tag
definition payload is represented by its textual title. -/
abbrev TagMap := List (String × String)

/-- A `creation` rule: `{ enabled, requiredTags }`. -/
structure UserCreation where
  enabled : Bool
  requiredTags : List String
  deriving Repr

/-- The `user` section of an integration definition; both members are
optional in the raw input. -/
structure UserDef where
  tags : Option TagMap
  creation : Option UserCreation
  deriving Repr

/-- An action definition: `{ input: { schema }, output: { schema } }`. -/
structure ActionDef where
  input : WithSchema
  output : WithSchema
  deriving Repr

/-- The `conversation` part of a channel. -/
structure ConversationDef where
  tags : Option TagMap
  creation : Option UserCreation
  deriving Repr

/-- The `message` part of a channel. -/
structure MessageDef where
  tags : Option TagMap
  deriving Repr

/-- A channel definition: optional conversation / message rules and a
record of message schemas. -/
structure ChannelDef where
  conversation : Option ConversationDef
  message : Option MessageDef
  messages : List (String × WithSchema)
  deriving Repr

/-- An integration definition. The raw (`bpsdk.IntegrationDefinition`)
input and the mapped (`types.IntegrationDefinition`) output share this
shape: every optional section is an `Option`, and the mapper returns all
sections as `some` (`IntegrationImplementationIndexModule.create` still
guards its uses with `??` defaults, so the target type keeps the options).
Records are ordered association lists. -/
structure IntegrationDefinition where
  name : String
  version : String
  user : Option UserDef
  configuration : Option WithSchema
  events : Option (List (String × WithSchema))
  states : Option (List (String × WithSchema))
  actions : Option (List (String × ActionDef))
  channels : Option (List (String × ChannelDef))
  deriving Repr

/-- `_mapSchema` of `IntegrationImplementationIndexModule`:
`(x) => ({ ...x, schema: mapZodToJsonSchema(x) })`. -/
def _mapSchema (x : WithSchema) : WithSchema :=
  { x with schema := SchemaVal.json (mapZodToJsonSchema x) }

/-- `_mapIntegration` of `IntegrationImplementationIndexModule` (the
Definition Mapper `normalize`): defaults every absent optional section to
its empty form and applies the schema translator to every schema-bearing
leaf of the present sections. -/
def _mapIntegration (i : IntegrationDefinition) : IntegrationDefinition :=
  { name := i.name
    version := i.version
    user := some
      { tags := some ((i.user.bind UserDef.tags).getD [])
        creation := some ((i.user.bind UserDef.creation).getD
          { enabled := false, requiredTags := [] }) }
    configuration := some
      (match i.configuration with
        | some c => _mapSchema c
        | none => { schema := SchemaVal.json (JsonSchema.obj []) })
    events := some
      (match i.events with
        | some e => mapValues _mapSchema e
        | none => [])
    states := some
      (match i.states with
        | some s => mapValues _mapSchema s
        | none => [])
    actions := some
      (match i.actions with
        | some a => mapValues (fun x =>
            { input := _mapSchema x.input
              output := _mapSchema x.output : ActionDef }) a
        | none => [])
    channels := some
      (match i.channels with
        | some cs => mapValues (fun c =>
            { conversation := some
                { tags := some ((c.conversation.bind ConversationDef.tags).getD [])
                  creation := some ((c.conversation.bind ConversationDef.creation).getD
                    { enabled := false, requiredTags := [] }) }
              message := some
                { tags := some ((c.message.bind MessageDef.tags).getD []) }
              messages := mapValues _mapSchema c.messages : ChannelDef }) cs
        | none => []) }

/-- A raw definition with every optional section absent. -/
def emptyRawDefinition : IntegrationDefinition :=
  { name := "demo"
    version := "1.0.0"
    user := none
    configuration := none
    events := none
    states := none
    actions := none
    channels := none }

end DefinitionModel

namespace Codegen

/-- Modelled from the spec: `GENERATED_HEADER` of `const.ts` — a fixed
header comment line, free of timestamps so that output is deterministic. -/
def GENERATED_HEADER : String :=
  "// this file was automatically generated by the botpress cli, do not edit"

/-- Modelled from the spec: `INDEX_FILE` of `const.ts` — the file name of
an index generation unit. -/
def INDEX_FILE : String := "index.ts"

/-- Modelled from the spec: a generation unit (`module.ts`): an ordered
prefix list of path segments ending in the file name, an exported symbol
name, and rendered content. -/
structure Module where
  path : List String
  exportName : String
  contentStr : String
  deriving DecidableEq, Repr

/-- Drops a trailing `.ts` extension from a file name. -/
def stripExtension (s : String) : String :=
  if s.data.reverse.take 3 = ['s', 't', '.'] then
    (s.data.reverse.drop 3).reverse.asString
  else s

/-- Modelled from the spec: `unshift` — grows the unit's path-prefix list
by one segment as it is nested under a section name. -/
def Module.unshift (m : Module) (seg : String) : Module :=
  { m with path := seg :: m.path }

/-- Modelled from the spec: a unit's import alias (`module.name`) — its
section directory name when nested, else its file name without
extension. -/
def Module.name (m : Module) : String :=
  match m.path with
  | [] => ""
  | [f] => stripExtension f
  | seg :: _ => seg

/-- Modelled from the spec: `module.exports` — the aggregate export
identifier, computed once at creation and stable thereafter. -/
def Module.exports (m : Module) : String :=
  m.exportName

/-- Modelled from the spec: relative path segments from a consumer
directory to a target, collapsing the common prefix and stepping up with
`..` otherwise. -/
def relativeSegments (fromDir target : List String) : List String :=
  match fromDir, target with
  | [], t => t
  | f :: fs, t :: ts =>
    if f = t then relativeSegments fs ts
    else (f :: fs).map (fun _ => "..") ++ t :: ts
  | fs, [] => fs.map fun _ => ".."

/-- Modelled from the spec: `module.import(consumer)` — the
forward-slash relative reference from the consumer's file location to
this module's file, extension stripped, portable across platforms. -/
def Module.importRef (m consumer : Module) : String :=
  String.intercalate "/"
    (relativeSegments consumer.path.dropLast
      (m.path.dropLast ++ [stripExtension (m.path.getLastD "")]))

/-- Modelled from the spec: shared rendering of a leaf generator module's
content — the generated header, then a type alias capturing the section's
shape under the aggregate export identifier. The precise alias body
rendering is not under `src/`; it is represented by the canonical textual
rendering of the canonical section value. -/
def renderLeaf (exportName : String) (body : String) : String :=
  GENERATED_HEADER ++ "\n" ++ "export type " ++ exportName ++ " = " ++ body

/-- Modelled from the spec: `ConfigurationModule.create` — a leaf unit for
the configuration section, mounted at an index file, exporting
`Configuration`. -/
def ConfigurationModule.create (c : WithSchema) : Module :=
  { path := [INDEX_FILE]
    exportName := "Configuration"
    contentStr := renderLeaf "Configuration" (reprStr c) }

/-- Modelled from the spec: `ActionsModule.create` — a leaf unit for the
actions section, exporting `Actions`. -/
def ActionsModule.create (a : List (String × ActionDef)) : Module :=
  { path := [INDEX_FILE]
    exportName := "Actions"
    contentStr := renderLeaf "Actions" (reprStr a) }

/-- Modelled from the spec: `ChannelsModule.create` — a leaf unit for the
channels section, exporting `Channels`. -/
def ChannelsModule.create (c : List (String × ChannelDef)) : Module :=
  { path := [INDEX_FILE]
    exportName := "Channels"
    contentStr := renderLeaf "Channels" (reprStr c) }

/-- Modelled from the spec: `EventsModule.create` — a leaf unit for the
events section, exporting `Events`. -/
def EventsModule.create (e : List (String × WithSchema)) : Module :=
  { path := [INDEX_FILE]
    exportName := "Events"
    contentStr := renderLeaf "Events" (reprStr e) }

/-- Modelled from the spec: `StatesModule.create` — a leaf unit for the
states section, exporting `States`. -/
def StatesModule.create (s : List (String × WithSchema)) : Module :=
  { path := [INDEX_FILE]
    exportName := "States"
    contentStr := renderLeaf "States" (reprStr s) }

/-- Modelled from the spec: `stringifySingleLine` on a tags record —
single-line JSON text. -/
def stringifyTagMap (tags : TagMap) : String :=
  "\x7b " ++
    String.intercalate ", "
      (tags.map (fun p => "\"" ++ p.1 ++ "\": \x7b \"title\": \"" ++ p.2 ++ "\" \x7d")) ++
    " \x7d"

/-- Modelled from the spec: `stringifySingleLine` on a creation rule —
single-line JSON text. -/
def stringifyCreation (c : UserCreation) : String :=
  "\x7b \"enabled\": " ++ (if c.enabled then "true" else "false") ++
    ", \"requiredTags\": [" ++
    String.intercalate ", " (c.requiredTags.map (fun t => "\"" ++ t ++ "\"")) ++
    "] \x7d"

/-- Modelled from the spec: `stringifySingleLine` of `generators.ts` on
the mapped user section — single-line JSON-like text of the value. -/
def stringifySingleLine (u : Option UserDef) : String :=
  match u with
  | none => "undefined"
  | some ud =>
    "\x7b \"tags\": " ++
      (match ud.tags with
        | none => "undefined"
        | some t => stringifyTagMap t) ++
      ", \"creation\": " ++
      (match ud.creation with
        | none => "undefined"
        | some c => stringifyCreation c) ++
      " \x7d"

/-- The `IntegrationImplementationIndexModule`: the mapped definition, the
five leaf units it depends on, its own unit metadata (`ModuleDef` with
path `INDEX_FILE`, export name `Integration`, content initially empty),
and the registered dependency list (`pushDep` order). -/
structure IntegrationImplementationIndexModule where
  integration : IntegrationDefinition
  configModule : Module
  actionsModule : Module
  channelsModule : Module
  eventsModule : Module
  statesModule : Module
  selfMod : Module
  deps : List Module
  deriving Repr

/-- `IntegrationImplementationIndexModule.create`: maps the raw
definition, creates the five leaf units (each on the mapped section,
defaulted with `??` as in the source), mounts each under its fixed
section segment via `unshift`, and registers the five as dependencies in
order. -/
def IntegrationImplementationIndexModule.create
    (sdkIntegration : IntegrationDefinition) :
    IntegrationImplementationIndexModule :=
  let integration := _mapIntegration sdkIntegration
  let configModule :=
    (ConfigurationModule.create
      (integration.configuration.getD
        { schema := SchemaVal.json (JsonSchema.obj []) })).unshift "configuration"
  let actionsModule :=
    (ActionsModule.create (integration.actions.getD [])).unshift "actions"
  let channelsModule :=
    (ChannelsModule.create (integration.channels.getD [])).unshift "channels"
  let eventsModule :=
    (EventsModule.create (integration.events.getD [])).unshift "events"
  let statesModule :=
    (StatesModule.create (integration.states.getD [])).unshift "states"
  { integration := integration
    configModule := configModule
    actionsModule := actionsModule
    channelsModule := channelsModule
    eventsModule := eventsModule
    statesModule := statesModule
    selfMod := { path := [INDEX_FILE], exportName := "Integration", contentStr := "" }
    deps := [configModule, actionsModule, channelsModule, eventsModule, statesModule] }

/-- The line array joined by the `content` getter of
`IntegrationImplementationIndexModule`, in source order. -/
def IntegrationImplementationIndexModule.contentLines
    (x : IntegrationImplementationIndexModule) : List String :=
  let configImport := x.configModule.importRef x.selfMod
  let actionsImport := x.actionsModule.importRef x.selfMod
  let channelsImport := x.channelsModule.importRef x.selfMod
  let eventsImport := x.eventsModule.importRef x.selfMod
  let statesImport := x.statesModule.importRef x.selfMod
  [ GENERATED_HEADER,
    "import * as sdk from \"@botpress/sdk\"",
    "",
    "import type * as " ++ x.configModule.name ++ " from \"./" ++ configImport ++ "\"",
    "import type * as " ++ x.actionsModule.name ++ " from \"./" ++ actionsImport ++ "\"",
    "import type * as " ++ x.channelsModule.name ++ " from \"./" ++ channelsImport ++ "\"",
    "import type * as " ++ x.eventsModule.name ++ " from \"./" ++ eventsImport ++ "\"",
    "import type * as " ++ x.statesModule.name ++ " from \"./" ++ statesImport ++ "\"",
    "export * as " ++ x.configModule.name ++ " from \"./" ++ configImport ++ "\"",
    "export * as " ++ x.actionsModule.name ++ " from \"./" ++ actionsImport ++ "\"",
    "export * as " ++ x.channelsModule.name ++ " from \"./" ++ channelsImport ++ "\"",
    "export * as " ++ x.eventsModule.name ++ " from \"./" ++ eventsImport ++ "\"",
    "export * as " ++ x.statesModule.name ++ " from \"./" ++ statesImport ++ "\"",
    "",
    "type TIntegration = \x7b",
    "  name: \"" ++ x.integration.name ++ "\"",
    "  version: \"" ++ x.integration.version ++ "\"",
    "  configuration: " ++ x.configModule.name ++ "." ++ x.configModule.exports,
    "  actions: " ++ x.actionsModule.name ++ "." ++ x.actionsModule.exports,
    "  channels: " ++ x.channelsModule.name ++ "." ++ x.channelsModule.exports,
    "  events: " ++ x.eventsModule.name ++ "." ++ x.eventsModule.exports,
    "  states: " ++ x.statesModule.name ++ "." ++ x.statesModule.exports,
    "  user: " ++ stringifySingleLine x.integration.user,
    "\x7d",
    "",
    "export type IntegrationProps = sdk.IntegrationProps<TIntegration>",
    "",
    "export class Integration extends sdk.Integration<TIntegration> \x7b\x7d",
    "",
    "export type Client = sdk.IntegrationSpecificClient<TIntegration>" ]

/-- The `content` getter of `IntegrationImplementationIndexModule`: starts
from `GENERATED_HEADER` and appends the line array joined with
newlines. -/
def IntegrationImplementationIndexModule.content
    (x : IntegrationImplementationIndexModule) : String :=
  GENERATED_HEADER ++ String.intercalate "\n" x.contentLines

end Codegen

namespace Cli

/-- An esbuild output artifact, represented by its text
(`outputFiles[i].text`). -/
abbrev Artifact := String

/-- The environment that `readIntegrationDefinitionFromFS` consults: does
the definition entrypoint file exist; the outcome of
`utils.esbuild.buildEntrypoint` (a thrown build error, or the list of
in-memory output artifacts); and the outcome of
`utils.require.requireJsCode` on the first artifact (a thrown evaluation
error, or the evaluated module's optional `default` export). -/
structure ProjectEnv where
  definitionExists : Bool
  buildResult : Except String (List Artifact)
  requireResult : Except String (Option IntegrationDefinition)
  deriving Repr

/-- `readIntegrationDefinitionFromFS` of `project-command.ts`: returns
`undefined` (after a debug log) when the definition file does not exist;
otherwise bundles the entrypoint (propagating a build failure), throws a
`BotpressCLIError` when the bundler produced no artifact, and otherwise
evaluates the artifact (propagating an evaluation failure) and returns
its `default` export. -/
def readIntegrationDefinitionFromFS (env : ProjectEnv) :
    Except String (Option IntegrationDefinition) :=
  if env.definitionExists = false then
    Except.ok none
  else
    match env.buildResult with
    | Except.error e => Except.error e
    | Except.ok outputFiles =>
      match outputFiles.head? with
      | none => Except.error "Could not read integration definition"
      | some _artifact =>
        match env.requireResult with
        | Except.error e => Except.error e
        | Except.ok definition => Except.ok definition

/-- A generated file handed to the emitter (`codegen.File`): a path
relative to the out folder (as segments) and its content. -/
structure GenFile where
  path : List String
  content : String
  deriving DecidableEq, Repr

/-- File-system state: the set of existing directories (as absolute
segment paths) and the written files. -/
structure FsState where
  dirs : List (List String)
  files : List (List String × String)
  deriving DecidableEq, Repr

/-- The chain of directories leading to `dir`: every non-empty prefix of
`dir`, innermost last. -/
def dirChain : List String → List (List String)
  | [] => []
  | s :: rest => [s] :: (dirChain rest).map (fun d => s :: d)

/-- Modelled from the spec (Node `fs.promises.mkdir` with
`recursive: true`): creates the directory and every intermediate
directory; a directory that already exists is left alone and is not an
error — the operation is total. -/
def mkdirRecursive (s : FsState) (dir : List String) : FsState :=
  { s with dirs := s.dirs ++ (dirChain dir).filter (fun d => decide (d ∉ s.dirs)) }

/-- Modelled from the spec (Node `fs.promises.writeFile`): fails when the
parent directory does not exist, otherwise records the content at the
path, overwriting any previous content. -/
def writeFile (s : FsState) (p : List String) (c : String) :
    Except String FsState :=
  if p.dropLast = [] ∨ p.dropLast ∈ s.dirs then
    Except.ok { s with files := (p, c) :: s.files.filter (fun q => decide (q.1 ≠ p)) }
  else
    Except.error "ENOENT"

/-- `writeGeneratedFilesToOutFolder` of `project-command.ts`: for each
generated file in order, resolves its absolute path under the out folder,
creates its parent directory recursively, then writes its content. -/
def writeGeneratedFilesToOutFolder (outDir : List String) :
    List GenFile → FsState → Except String FsState
  | [], s => Except.ok s
  | f :: rest, s =>
    let filePath := outDir ++ f.path
    let dirPath := filePath.dropLast
    match writeFile (mkdirRecursive s dirPath) filePath f.content with
    | Except.error e => Except.error e
    | Except.ok s₂ => writeGeneratedFilesToOutFolder outDir rest s₂

end Cli

namespace Codegen

/-- Drops leading space characters. -/
def dropSpaces : List Char → List Char
  | [] => []
  | c :: cs => if c = ' ' then dropSpaces cs else c :: cs

/-- The characters up to the first colon. -/
def upToColon : List Char → List Char
  | [] => []
  | c :: cs => if c = ':' then [] else c :: upToColon cs

/-- The field name declared by one line of a type-literal block: the line
stripped of leading spaces, up to the first colon. -/
def fieldNameOfLine (l : String) : String :=
  (upToColon (dropSpaces l.data)).asString

/-- The lines of a type-literal block up to its closing brace line. -/
def takeFieldLines : List String → List String
  | [] => []
  | l :: ls => if l = "\x7d" then [] else l :: takeFieldLines ls

/-- Skips to the line list following the opening `TIntegration` type
literal line. -/
def skipToTypeBlock : List String → List String
  | [] => []
  | l :: ls => if l = "type TIntegration = \x7b" then ls else skipToTypeBlock ls

/-- The names of the fields declared by the `TIntegration` type literal
of a rendered line list: the lines between the opening
`type TIntegration` line and the next closing brace line, each reduced to
its declared field name. -/
def tIntegrationFieldNames (ls : List String) : List String :=
  (takeFieldLines (skipToTypeBlock ls)).map fieldNameOfLine

end Codegen

section Erasure

/-- Erases a schema value to a fixed placeholder, for comparing
definitions up to their schema leaves. -/
def eraseSchemaVal (_ : SchemaVal) : SchemaVal :=
  SchemaVal.json JsonSchema.unknown

/-- Erases the schema of a schema-bearing leaf. -/
def eraseWithSchema (w : WithSchema) : WithSchema :=
  { schema := eraseSchemaVal w.schema }

/-- Erases the schemas of an action definition. -/
def eraseAction (a : ActionDef) : ActionDef :=
  { input := eraseWithSchema a.input, output := eraseWithSchema a.output }

/-- Erases the message schemas of a channel definition, keeping its
conversation and message rules. -/
def eraseChannel (c : ChannelDef) : ChannelDef :=
  { c with messages := mapValues eraseWithSchema c.messages }

/-- Erases every schema leaf of an integration definition, keeping the
name, version, user section, section presence and record keys. -/
def eraseSchemas (i : IntegrationDefinition) : IntegrationDefinition :=
  { i with
    configuration := i.configuration.map eraseWithSchema
    events := i.events.map (mapValues eraseWithSchema)
    states := i.states.map (mapValues eraseWithSchema)
    actions := i.actions.map (mapValues eraseAction)
    channels := i.channels.map (mapValues eraseChannel) }

end Erasure

section MapperLemmas

/-- Composing two record value maps. -/
theorem mapValues_mapValues (f : β → γ) (g : α → β) (l : List (String × α)) :
    mapValues f (mapValues g l) = mapValues (fun x => f (g x)) l := by
  simp [mapValues, List.map_map, Function.comp]

/-- Pointwise-equal value maps agree on any record. -/
theorem mapValues_congr (f g : α → β) (l : List (String × α))
    (h : ∀ x, f x = g x) : mapValues f l = mapValues g l := by
  induction l with
  | nil => rfl
  | cons a t ih => simp [mapValues] at ih ⊢; exact ⟨h a.2, ih⟩

end MapperLemmas

/-- C1: `_mapIntegration` substitutes the documented empty form for every
absent optional section: absent `actions`, `events` and `states` map to
the empty record, absent `configuration` maps to an empty-object schema,
and an absent user `creation` rule maps to
`enabled: false, requiredTags: []`. -/
theorem C1_mapIntegration_defaults_absent_sections
    (d : IntegrationDefinition)
    (ha : d.actions = none) (hc : d.configuration = none)
    (he : d.events = none) (hs : d.states = none)
    (hu : d.user.bind UserDef.creation = none) :
    (_mapIntegration d).actions = some [] ∧
    (_mapIntegration d).configuration =
      some { schema := SchemaVal.json (JsonSchema.obj []) } ∧
    (_mapIntegration d).events = some [] ∧
    (_mapIntegration d).states = some [] ∧
    (_mapIntegration d).user = some
      { tags := some ((d.user.bind UserDef.tags).getD [])
        creation := some { enabled := false, requiredTags := [] } } := by
  refine ⟨?_, ?_, ?_, ?_, ?_⟩ <;> simp [_mapIntegration, ha, hc, he, hs, hu]

/-- Witness for C1 at the all-absent raw definition. -/
theorem C1_mapIntegration_defaults_absent_sections_witness :
    (_mapIntegration emptyRawDefinition).actions = some [] ∧
    (_mapIntegration emptyRawDefinition).configuration =
      some { schema := SchemaVal.json (JsonSchema.obj []) } ∧
    (_mapIntegration emptyRawDefinition).events = some [] ∧
    (_mapIntegration emptyRawDefinition).states = some [] ∧
    (_mapIntegration emptyRawDefinition).user = some
      { tags := some ((emptyRawDefinition.user.bind UserDef.tags).getD [])
        creation := some { enabled := false, requiredTags := [] } } :=
  C1_mapIntegration_defaults_absent_sections emptyRawDefinition rfl rfl rfl rfl rfl

/-- C3: after the Definition Mapper runs, every optional section is
present in its possibly-empty form — configuration, actions, channels,
events, states, the user section with its tags and creation rule, and
within every mapped channel the conversation and message rules — for
every raw definition. -/
theorem C3_mapped_sections_all_present (d : IntegrationDefinition) :
    (_mapIntegration d).configuration.isSome = true ∧
    (_mapIntegration d).actions.isSome = true ∧
    (_mapIntegration d).channels.isSome = true ∧
    (_mapIntegration d).events.isSome = true ∧
    (_mapIntegration d).states.isSome = true ∧
    ((_mapIntegration d).user.bind UserDef.tags).isSome = true ∧
    ((_mapIntegration d).user.bind UserDef.creation).isSome = true ∧
    (((_mapIntegration d).channels.getD []).all
      (fun p => p.2.conversation.isSome && p.2.message.isSome)) = true := by
  refine ⟨rfl, rfl, rfl, rfl, rfl, rfl, rfl, ?_⟩
  cases h : d.channels with
  | none => simp [_mapIntegration, h]
  | some cs =>
    simp only [_mapIntegration, h, Option.getD_some, mapValues, List.all_eq_true]
    intro p hp
    simp at hp
    obtain ⟨q, qd, _hmem, rfl⟩ := hp
    simp

/-- C2 counterexample: normalization is not idempotent. On the raw
definition with every optional section absent, the first pass materializes
`configuration` as the empty-object schema, and the second pass re-applies
the schema translator to it, which degrades the already-translated object
to the `unknown` node. -/
theorem C2_normalize_not_idempotent_counterexample :
    _mapIntegration (_mapIntegration emptyRawDefinition) ≠
      _mapIntegration emptyRawDefinition := by
  intro h
  have hc := congrArg IntegrationDefinition.configuration h
  simp [_mapIntegration, _mapSchema, mapZodToJsonSchema, emptyRawDefinition] at hc

/-- C2 amended: normalization is idempotent up to re-translation of the
schema leaves — a second application of `_mapIntegration` preserves the
name, the version, the user section with its defaults, every section's
presence, every record's keys, and every channel's conversation and
message rules, and changes at most the `schema` fields. -/
theorem C2_amended_normalize_idempotent_up_to_schemas
    (d : IntegrationDefinition) :
    eraseSchemas (_mapIntegration (_mapIntegration d)) =
      eraseSchemas (_mapIntegration d) := by
  simp only [_mapIntegration, eraseSchemas, Option.some_bind, Option.getD_some,
    Option.map_some', mapValues_mapValues, IntegrationDefinition.mk.injEq]
  refine ⟨trivial, trivial, trivial, ?_, ?_, ?_, ?_, ?_⟩
  · rfl
  · exact congrArg some (mapValues_congr _ _ _ fun x => rfl)
  · exact congrArg some (mapValues_congr _ _ _ fun x => rfl)
  · exact congrArg some (mapValues_congr _ _ _ fun x => rfl)
  · cases d.channels with
    | none => rfl
    | some cs =>
      simp only [mapValues_mapValues]
      refine congrArg some (mapValues_congr _ _ _ fun c => ?_)
      simp only [eraseChannel, mapValues_mapValues, ChannelDef.mk.injEq,
        Option.some_bind, Option.getD_some]
      exact ⟨trivial, trivial, mapValues_congr _ _ _ fun y => rfl⟩

open Codegen

/-- C10: for every input definition, the created index module exports
`Integration` at path `INDEX_FILE`, and its five leaf dependencies are
mounted, in order, under the fixed path segments `configuration`,
`actions`, `channels`, `events` and `states`, independently of the
definition's contents. -/
theorem C10_create_fixed_layout (d : IntegrationDefinition) :
    (IntegrationImplementationIndexModule.create d).selfMod.exportName = "Integration" ∧
    (IntegrationImplementationIndexModule.create d).selfMod.path = [INDEX_FILE] ∧
    ((IntegrationImplementationIndexModule.create d).deps.map
      (fun m => m.path.headD "")) =
      ["configuration", "actions", "channels", "events", "states"] ∧
    (IntegrationImplementationIndexModule.create d).deps =
      [(IntegrationImplementationIndexModule.create d).configModule,
       (IntegrationImplementationIndexModule.create d).actionsModule,
       (IntegrationImplementationIndexModule.create d).channelsModule,
       (IntegrationImplementationIndexModule.create d).eventsModule,
       (IntegrationImplementationIndexModule.create d).statesModule] :=
  ⟨rfl, rfl, rfl, rfl⟩

/-- C8: the import aliases of the five sibling leaf modules registered on
the index module, and their export identifiers, are pairwise distinct for
every definition; no renaming branch is ever needed because the aliases
are the five fixed, distinct section segments. -/
theorem C8_sibling_aliases_distinct (d : IntegrationDefinition) :
    ((IntegrationImplementationIndexModule.create d).deps.map Module.name).Nodup ∧
    ((IntegrationImplementationIndexModule.create d).deps.map Module.exports).Nodup := by
  constructor
  · show (["configuration", "actions", "channels", "events", "states"] :
      List String).Nodup
    decide
  · show (["Configuration", "Actions", "Channels", "Events", "States"] :
      List String).Nodup
    decide

/-- C5: generation is deterministic — two independent runs of module
creation on the same definition produce equal module graphs, and in
particular byte-identical index content and byte-identical content for
every leaf module. -/
theorem C5_generation_deterministic (d : IntegrationDefinition)
    (m₁ m₂ : IntegrationImplementationIndexModule)
    (h₁ : m₁ = IntegrationImplementationIndexModule.create d)
    (h₂ : m₂ = IntegrationImplementationIndexModule.create d) :
    m₁.content = m₂.content ∧
    m₁.deps.map Module.contentStr = m₂.deps.map Module.contentStr ∧
    m₁ = m₂ := by
  subst h₁
  subst h₂
  exact ⟨rfl, rfl, rfl⟩

/-- Witness for C5 at the all-absent raw definition. -/
theorem C5_generation_deterministic_witness :
    (IntegrationImplementationIndexModule.create emptyRawDefinition).content =
      (IntegrationImplementationIndexModule.create emptyRawDefinition).content ∧
    (IntegrationImplementationIndexModule.create emptyRawDefinition).deps.map
        Module.contentStr =
      (IntegrationImplementationIndexModule.create emptyRawDefinition).deps.map
        Module.contentStr ∧
    IntegrationImplementationIndexModule.create emptyRawDefinition =
      IntegrationImplementationIndexModule.create emptyRawDefinition :=
  C5_generation_deterministic emptyRawDefinition _ _ rfl rfl

section StringToolkit

/-- Accumulator lemma for `String.intercalate`. -/
theorem intercalate_go_acc (s x y : String) (l : List String) :
    String.intercalate.go (x ++ y) s l = x ++ String.intercalate.go y s l := by
  induction l generalizing y with
  | nil => rfl
  | cons c cs ih =>
    show String.intercalate.go (x ++ y ++ s ++ c) s cs =
      x ++ String.intercalate.go (y ++ s ++ c) s cs
    rw [String.append_assoc, String.append_assoc, ← ih]
    simp [String.append_assoc]

/-- Unfolding `String.intercalate` on a list with at least two
elements. -/
theorem intercalate_cons_cons (s a b : String) (l : List String) :
    String.intercalate s (a :: b :: l) =
      a ++ s ++ String.intercalate s (b :: l) := by
  show String.intercalate.go a s (b :: l) = a ++ s ++ String.intercalate.go b s l
  show String.intercalate.go (a ++ s ++ b) s l =
    a ++ s ++ String.intercalate.go b s l
  rw [intercalate_go_acc s (a ++ s) b l]

/-- The first character of an appended string is that of its first
part. -/
theorem head_append (x y : String) (c : Char) (h : x.data.head? = some c) :
    (x ++ y).data.head? = some c := by
  rw [String.data_append]
  cases hX : x.data with
  | nil => rw [hX] at h; simp at h
  | cons a as => rw [hX] at h; simp at h; simp [hX, h]

/-- Strings whose first characters differ are distinct. -/
theorem ne_of_head {a t : String} {c c' : Char}
    (ha : a.data.head? = some c) (ht : t.data.head? = some c')
    (hcc : c ≠ c') : a ≠ t := by
  intro h
  rw [h, ht] at ha
  exact hcc (Option.some.inj ha).symm

/-- A one-append line is distinct from any string starting with a
different character. -/
theorem append1_ne (p a t : String) {c c' : Char}
    (hp : p.data.head? = some c) (ht : t.data.head? = some c')
    (hcc : c ≠ c') : p ++ a ≠ t :=
  ne_of_head (head_append p a c hp) ht hcc

/-- A two-append line is distinct from any string starting with a
different character. -/
theorem append2_ne (p a q t : String) {c c' : Char}
    (hp : p.data.head? = some c) (ht : t.data.head? = some c')
    (hcc : c ≠ c') : p ++ a ++ q ≠ t :=
  ne_of_head (head_append _ q c (head_append p a c hp)) ht hcc

/-- A three-append line is distinct from any string starting with a
different character. -/
theorem append3_ne (p a q b t : String) {c c' : Char}
    (hp : p.data.head? = some c) (ht : t.data.head? = some c')
    (hcc : c ≠ c') : p ++ a ++ q ++ b ≠ t :=
  ne_of_head (head_append _ b c (head_append _ q c (head_append p a c hp))) ht hcc

/-- A four-append line is distinct from any string starting with a
different character. -/
theorem append4_ne (p a q b r t : String) {c c' : Char}
    (hp : p.data.head? = some c) (ht : t.data.head? = some c')
    (hcc : c ≠ c') : p ++ a ++ q ++ b ++ r ≠ t :=
  ne_of_head
    (head_append _ r c
      (head_append _ b c (head_append _ q c (head_append p a c hp)))) ht hcc

end StringToolkit

/-- C9: for every definition, the rendered index content begins with the
generated-code header emitted twice in succession — the content string is
initialized to `GENERATED_HEADER` and the joined line array also begins
with `GENERATED_HEADER`. -/
theorem C9_header_emitted_twice (d : IntegrationDefinition) :
    (IntegrationImplementationIndexModule.create d).contentLines.head? =
      some GENERATED_HEADER ∧
    ∃ rest : String,
      (IntegrationImplementationIndexModule.create d).content =
        GENERATED_HEADER ++ (GENERATED_HEADER ++ ("\n" ++ rest)) := by
  refine ⟨rfl, ⟨String.intercalate "\n"
    (IntegrationImplementationIndexModule.create d).contentLines.tail, ?_⟩⟩
  have h : (IntegrationImplementationIndexModule.create d).contentLines =
      GENERATED_HEADER :: "import * as sdk from \"@botpress/sdk\"" ::
        (IntegrationImplementationIndexModule.create d).contentLines.tail.tail :=
    rfl
  show GENERATED_HEADER ++
      String.intercalate "\n"
        (IntegrationImplementationIndexModule.create d).contentLines = _
  rw [h, intercalate_cons_cons]
  simp [String.append_assoc]

section IndexContentLemmas

/-- An import line of the index content never opens the type-literal
block. -/
theorem import_line_ne (n i : String) :
    "import type * as " ++ n ++ " from \"./" ++ i ++ "\"" ≠
      "type TIntegration = \x7b" :=
  append4_ne _ _ _ _ _ _ rfl rfl (by decide)

/-- An export line of the index content never opens the type-literal
block. -/
theorem export_line_ne (n i : String) :
    "export * as " ++ n ++ " from \"./" ++ i ++ "\"" ≠
      "type TIntegration = \x7b" :=
  append4_ne _ _ _ _ _ _ rfl rfl (by decide)

/-- The name field line never closes the type-literal block. -/
theorem name_line_ne (n : String) : "  name: \"" ++ n ++ "\"" ≠ "\x7d" :=
  append2_ne _ _ _ _ rfl rfl (by decide)

/-- The version field line never closes the type-literal block. -/
theorem version_line_ne (n : String) :
    "  version: \"" ++ n ++ "\"" ≠ "\x7d" :=
  append2_ne _ _ _ _ rfl rfl (by decide)

/-- A section field line (label, alias, dot, export identifier) never
closes the type-literal block. -/
theorem section_line_ne (p n e : String) (hp : p.data.head? = some ' ') :
    p ++ n ++ "." ++ e ≠ "\x7d" :=
  append3_ne _ _ _ _ _ hp rfl (by decide)

/-- The user field line never closes the type-literal block. -/
theorem user_line_ne (s : String) : "  user: " ++ s ≠ "\x7d" :=
  append1_ne _ _ _ rfl rfl (by decide)

/-- The `TIntegration` type literal of any index module's rendered lines
declares exactly the eight fields `name`, `version`, `configuration`,
`actions`, `channels`, `events`, `states`, `user`. -/
theorem tIntegration_fields_of_contentLines
    (x : IntegrationImplementationIndexModule) :
    tIntegrationFieldNames x.contentLines =
      ["name", "version", "configuration", "actions", "channels", "events",
       "states", "user"] := by
  simp only [IntegrationImplementationIndexModule.contentLines,
    tIntegrationFieldNames, skipToTypeBlock]
  rw [if_neg (by decide : ¬(GENERATED_HEADER = "type TIntegration = \x7b")),
    if_neg (by decide :
      ¬("import * as sdk from \"@botpress/sdk\"" = "type TIntegration = \x7b")),
    if_neg (by decide : ¬("" = "type TIntegration = \x7b")),
    if_neg (import_line_ne _ _), if_neg (import_line_ne _ _),
    if_neg (import_line_ne _ _), if_neg (import_line_ne _ _),
    if_neg (import_line_ne _ _),
    if_neg (export_line_ne _ _), if_neg (export_line_ne _ _),
    if_neg (export_line_ne _ _), if_neg (export_line_ne _ _),
    if_neg (export_line_ne _ _),
    if_neg (by decide : ¬("" = "type TIntegration = \x7b")),
    if_true]
  simp only [takeFieldLines]
  rw [if_neg (name_line_ne _), if_neg (version_line_ne _),
    if_neg (section_line_ne "  configuration: " _ _ rfl),
    if_neg (section_line_ne "  actions: " _ _ rfl),
    if_neg (section_line_ne "  channels: " _ _ rfl),
    if_neg (section_line_ne "  events: " _ _ rfl),
    if_neg (section_line_ne "  states: " _ _ rfl),
    if_neg (user_line_ne _),
    if_true]
  simp [fieldNameOfLine, dropSpaces, upToColon, String.data_append]
  exact ⟨rfl, rfl, rfl, rfl, rfl, rfl, rfl, rfl⟩

end IndexContentLemmas

/-- The rendered content of a created index module, as an explicit
function of the definition's name, version and user section alone: every
other ingredient (the five aliases, import references and export
identifiers) is a fixed constant of `create`. -/
theorem content_create_closed_form (dd : IntegrationDefinition) :
    (IntegrationImplementationIndexModule.create dd).content =
      GENERATED_HEADER ++ String.intercalate "\n"
        [GENERATED_HEADER,
         "import * as sdk from \"@botpress/sdk\"",
         "",
         "import type * as configuration from \"./configuration/index\"",
         "import type * as actions from \"./actions/index\"",
         "import type * as channels from \"./channels/index\"",
         "import type * as events from \"./events/index\"",
         "import type * as states from \"./states/index\"",
         "export * as configuration from \"./configuration/index\"",
         "export * as actions from \"./actions/index\"",
         "export * as channels from \"./channels/index\"",
         "export * as events from \"./events/index\"",
         "export * as states from \"./states/index\"",
         "",
         "type TIntegration = \x7b",
         "  name: \"" ++ dd.name ++ "\"",
         "  version: \"" ++ dd.version ++ "\"",
         "  configuration: configuration.Configuration",
         "  actions: actions.Actions",
         "  channels: channels.Channels",
         "  events: events.Events",
         "  states: states.States",
         "  user: " ++ stringifySingleLine (some
           { tags := some ((dd.user.bind UserDef.tags).getD [])
             creation := some ((dd.user.bind UserDef.creation).getD
               { enabled := false, requiredTags := [] }) }),
         "\x7d",
         "",
         "export type IntegrationProps = sdk.IntegrationProps<TIntegration>",
         "",
         "export class Integration extends sdk.Integration<TIntegration> \x7b\x7d",
         "",
         "export type Client = sdk.IntegrationSpecificClient<TIntegration>"] :=
  rfl

/-- A raw definition that differs from `emptyRawDefinition` only in its
schema-bearing sections. -/
def eventfulRawDefinition : IntegrationDefinition :=
  { emptyRawDefinition with
    configuration := some { schema := SchemaVal.zod ZodSchema.string }
    events := some [("started", { schema := SchemaVal.zod ZodSchema.boolean })] }

/-- C4: the index module's rendered content declares a single composite
type whose fields are exactly `name`, `version`, `configuration`,
`actions`, `channels`, `events`, `states` and `user`; and for modules
produced by `create` — whose five leaf aliases, import references and
export identifiers are fixed constants — the content is a pure function
of the definition's `name`, `version` and `user` fields, so no schema
translation can influence the rendered index content. -/
theorem C4_index_content_fields_and_purity :
    (∀ x : IntegrationImplementationIndexModule,
      tIntegrationFieldNames x.contentLines =
        ["name", "version", "configuration", "actions", "channels", "events",
         "states", "user"]) ∧
    (∀ d₁ d₂ : IntegrationDefinition,
      d₁.name = d₂.name → d₁.version = d₂.version → d₁.user = d₂.user →
      (IntegrationImplementationIndexModule.create d₁).content =
        (IntegrationImplementationIndexModule.create d₂).content) := by
  refine ⟨tIntegration_fields_of_contentLines, ?_⟩
  intro d₁ d₂ hn hv hu
  rw [content_create_closed_form d₁, content_create_closed_form d₂, hn, hv, hu]

/-- Witness for C4: the field list at the empty definition, and content
equality between two definitions differing only in their schemas. -/
theorem C4_index_content_fields_and_purity_witness :
    tIntegrationFieldNames
        (IntegrationImplementationIndexModule.create
          emptyRawDefinition).contentLines =
      ["name", "version", "configuration", "actions", "channels", "events",
       "states", "user"] ∧
    (IntegrationImplementationIndexModule.create eventfulRawDefinition).content =
      (IntegrationImplementationIndexModule.create emptyRawDefinition).content :=
  ⟨C4_index_content_fields_and_purity.1 _,
   C4_index_content_fields_and_purity.2 eventfulRawDefinition
     emptyRawDefinition rfl rfl rfl⟩

/-- The environment in which the definition entrypoint file does not
exist. -/
def missingEntrypointEnv : Cli.ProjectEnv :=
  { definitionExists := false
    buildResult := Except.ok []
    requireResult := Except.ok none }

/-- C6 counterexample: when the definition entrypoint cannot be found,
`readIntegrationDefinitionFromFS` does not surface a fatal error — it
resolves successfully with `undefined` (after a debug log). -/
theorem C6_load_error_counterexample :
    missingEntrypointEnv.definitionExists = false ∧
    Cli.readIntegrationDefinitionFromFS missingEntrypointEnv =
      Except.ok none :=
  ⟨rfl, rfl⟩

/-- C6 amended: when the entrypoint exists, a bundling failure, an empty
artifact list, or an evaluation failure each surface a fatal error to the
caller without any success value and without retrying; an absent
entrypoint, or an artifact whose evaluated module lacks a usable default
export, instead yields a successful `undefined` return. -/
theorem C6_amended_load_errors (env : Cli.ProjectEnv) :
    (env.definitionExists = false →
      Cli.readIntegrationDefinitionFromFS env = Except.ok none) ∧
    (env.definitionExists = true →
      (∀ e, env.buildResult = Except.error e →
        Cli.readIntegrationDefinitionFromFS env = Except.error e) ∧
      (env.buildResult = Except.ok [] →
        Cli.readIntegrationDefinitionFromFS env =
          Except.error "Could not read integration definition") ∧
      (∀ a rest e, env.buildResult = Except.ok (a :: rest) →
        env.requireResult = Except.error e →
        Cli.readIntegrationDefinitionFromFS env = Except.error e) ∧
      (∀ a rest d, env.buildResult = Except.ok (a :: rest) →
        env.requireResult = Except.ok d →
        Cli.readIntegrationDefinitionFromFS env = Except.ok d)) := by
  constructor
  · intro h
    simp [Cli.readIntegrationDefinitionFromFS, h]
  · intro h
    refine ⟨?_, ?_, ?_, ?_⟩
    · intro e hb
      simp [Cli.readIntegrationDefinitionFromFS, h, hb]
    · intro hb
      simp [Cli.readIntegrationDefinitionFromFS, h, hb]
    · intro a rest e hb hr
      simp [Cli.readIntegrationDefinitionFromFS, h, hb, hr]
    · intro a rest d hb hr
      simp [Cli.readIntegrationDefinitionFromFS, h, hb, hr]

/-- Witness for the amended C6 at a concrete failing build. -/
theorem C6_amended_load_errors_witness :
    Cli.readIntegrationDefinitionFromFS
        { definitionExists := true
          buildResult := Except.error "could not bundle"
          requireResult := Except.ok none } =
      Except.error "could not bundle" :=
  ((C6_amended_load_errors
    { definitionExists := true
      buildResult := Except.error "could not bundle"
      requireResult := Except.ok none }).2 rfl).1 "could not bundle" rfl

section EmitterLemmas

/-- A non-empty directory path occurs in its own directory chain. -/
theorem mem_dirChain_self (dir : List String) (h : dir ≠ []) :
    dir ∈ Cli.dirChain dir := by
  induction dir with
  | nil => exact absurd rfl h
  | cons s rest ih =>
    cases rest with
    | nil => simp [Cli.dirChain]
    | cons a t =>
      show s :: a :: t ∈ [s] :: (Cli.dirChain (a :: t)).map (fun d => s :: d)
      exact List.mem_cons.mpr
        (Or.inr (List.mem_map.mpr ⟨a :: t, ih (by simp), rfl⟩))

/-- After a recursive directory creation, every directory of the chain
exists. -/
theorem mkdir_mem_of_mem_chain (s : Cli.FsState) (dir d : List String)
    (hd : d ∈ Cli.dirChain dir) : d ∈ (Cli.mkdirRecursive s dir).dirs := by
  simp only [Cli.mkdirRecursive, List.mem_append, List.mem_filter]
  by_cases h : d ∈ s.dirs
  · exact Or.inl h
  · exact Or.inr ⟨hd, by simpa using h⟩

/-- Recursive directory creation preserves existing directories. -/
theorem mkdir_dirs_subset (s : Cli.FsState) (dir : List String) :
    s.dirs ⊆ (Cli.mkdirRecursive s dir).dirs := by
  intro d hd
  simp only [Cli.mkdirRecursive, List.mem_append]
  exact Or.inl hd

/-- Recursive directory creation is idempotent: re-creating an existing
directory chain changes nothing and is not an error. -/
theorem mkdirRecursive_idem (s : Cli.FsState) (dir : List String) :
    Cli.mkdirRecursive (Cli.mkdirRecursive s dir) dir =
      Cli.mkdirRecursive s dir := by
  have h : ∀ d ∈ Cli.dirChain dir, d ∈ (Cli.mkdirRecursive s dir).dirs :=
    fun d hd => mkdir_mem_of_mem_chain s dir d hd
  have hfil : (Cli.dirChain dir).filter
      (fun d => decide (d ∉ (Cli.mkdirRecursive s dir).dirs)) = [] := by
    rw [List.filter_eq_nil_iff]
    intro d hd
    simpa using h d hd
  have hstep : Cli.mkdirRecursive (Cli.mkdirRecursive s dir) dir =
      { dirs := (Cli.mkdirRecursive s dir).dirs ++ (Cli.dirChain dir).filter
          (fun d => decide (d ∉ (Cli.mkdirRecursive s dir).dirs))
        files := (Cli.mkdirRecursive s dir).files } := rfl
  rw [hstep, hfil, List.append_nil]

/-- The emitter run never fails: each file's destination directory chain
is created before the file is written, directories only accumulate, and
the final state contains the full chain of every file written. -/
theorem writeGen_run (outDir : List String) (files : List Cli.GenFile) :
    ∀ s : Cli.FsState, ∃ s',
      Cli.writeGeneratedFilesToOutFolder outDir files s = Except.ok s' ∧
      s.dirs ⊆ s'.dirs ∧
      ∀ f ∈ files, Cli.dirChain (outDir ++ f.path).dropLast ⊆ s'.dirs := by
  induction files with
  | nil =>
    intro s
    exact ⟨s, rfl, fun a ha => ha, by simp⟩
  | cons f rest ih =>
    intro s
    have hcond : (outDir ++ f.path).dropLast = [] ∨
        (outDir ++ f.path).dropLast ∈
          (Cli.mkdirRecursive s ((outDir ++ f.path).dropLast)).dirs := by
      by_cases h : (outDir ++ f.path).dropLast = []
      · exact Or.inl h
      · exact Or.inr (mkdir_mem_of_mem_chain _ _ _ (mem_dirChain_self _ h))
    have hwrite : Cli.writeFile
        (Cli.mkdirRecursive s ((outDir ++ f.path).dropLast))
        (outDir ++ f.path) f.content =
        Except.ok
          { dirs := (Cli.mkdirRecursive s ((outDir ++ f.path).dropLast)).dirs
            files := (outDir ++ f.path, f.content) ::
              (Cli.mkdirRecursive s ((outDir ++ f.path).dropLast)).files.filter
                (fun q => decide (q.1 ≠ outDir ++ f.path)) } := by
      unfold Cli.writeFile
      rw [if_pos hcond]
    obtain ⟨s', hrun, hsub, hall⟩ := ih
      { dirs := (Cli.mkdirRecursive s ((outDir ++ f.path).dropLast)).dirs
        files := (outDir ++ f.path, f.content) ::
          (Cli.mkdirRecursive s ((outDir ++ f.path).dropLast)).files.filter
            (fun q => decide (q.1 ≠ outDir ++ f.path)) }
    refine ⟨s', ?_, ?_, ?_⟩
    · show (match Cli.writeFile
          (Cli.mkdirRecursive s ((outDir ++ f.path).dropLast))
          (outDir ++ f.path) f.content with
        | Except.error e => Except.error e
        | Except.ok s₂ =>
          Cli.writeGeneratedFilesToOutFolder outDir rest s₂) = Except.ok s'
      rw [hwrite]
      exact hrun
    · exact fun d hd => hsub (mkdir_dirs_subset s _ hd)
    · intro g hg
      rcases List.mem_cons.mp hg with hg | hg
      · subst hg
        exact fun d hd => hsub (mkdir_mem_of_mem_chain s _ d hd)
      · exact hall g hg

end EmitterLemmas

/-- C7: for every list of generated files, the emitter creates each
file's destination directory — including all intermediate directories —
before writing that file's content (so the run never fails on a missing
directory and the final state contains every file's directory chain),
and recursive directory creation of an already-existing directory is not
an error and changes nothing. -/
theorem C7_emitter_creates_dirs_before_writing (outDir : List String)
    (files : List Cli.GenFile) (s : Cli.FsState) :
    (∃ s', Cli.writeGeneratedFilesToOutFolder outDir files s = Except.ok s' ∧
      ∀ f ∈ files, Cli.dirChain (outDir ++ f.path).dropLast ⊆ s'.dirs) ∧
    (∀ dir, Cli.mkdirRecursive (Cli.mkdirRecursive s dir) dir =
      Cli.mkdirRecursive s dir) := by
  constructor
  · obtain ⟨s', h1, _, h3⟩ := writeGen_run outDir files s
    exact ⟨s', h1, h3⟩
  · intro dir
    exact mkdirRecursive_idem s dir

/-- Two generated files sharing a parent directory, for the C7 witness. -/
def demoGenFiles : List Cli.GenFile :=
  [{ path := ["sub", "a.ts"], content := "A" },
   { path := ["sub", "b.ts"], content := "B" }]

/-- Witness for C7: a concrete run with two files sharing a parent
directory succeeds and creates the shared chain. -/
theorem C7_emitter_creates_dirs_before_writing_witness :
    (∃ s', Cli.writeGeneratedFilesToOutFolder ["out"] demoGenFiles
        { dirs := [], files := [] } = Except.ok s' ∧
      Cli.dirChain ["out", "sub"] ⊆ s'.dirs) ∧
    Cli.mkdirRecursive
        (Cli.mkdirRecursive { dirs := [], files := [] } ["out", "sub"])
        ["out", "sub"] =
      Cli.mkdirRecursive { dirs := [], files := [] } ["out", "sub"] := by
  obtain ⟨⟨s', hrun, hall⟩, hidem⟩ :=
    C7_emitter_creates_dirs_before_writing ["out"] demoGenFiles
      { dirs := [], files := [] }
  refine ⟨⟨s', hrun, ?_⟩, hidem ["out", "sub"]⟩
  have hmem : ({ path := ["sub", "a.ts"], content := "A" } : Cli.GenFile) ∈
      demoGenFiles := by decide
  simpa using hall _ hmem
